import Mathlib

/-
Verification of the dynamorm table layer (src/dynamorm/table.py) against its
natural-language specification.  The boto3 condition objects, the keyword
expression builder (Q, get_expression), the query/scan/update request builders,
put/put_unique/put_batch, remove_nones and the ReadIterator state machine are
shallowly embedded below; each claim of the specification is then settled by a
theorem about these definitions.
-/

/-- A Python value as it appears in dynamorm call sites: None, booleans,
numbers, strings, lists and string-keyed dicts. -/
inductive PyVal where
  | none : PyVal
  | bool : Bool → PyVal
  | int : Int → PyVal
  | str : String → PyVal
  | list : List PyVal → PyVal
  | dict : List (String × PyVal) → PyVal

/-- Python `val is None`. -/
def PyVal.isNone : PyVal → Bool
  | PyVal.none => true
  | _ => false

/-- Python `value is True`. -/
def PyVal.isTrue : PyVal → Bool
  | PyVal.bool true => true
  | _ => false

/-- `startsWithChars pat l` holds when `pat` is an initial segment of `l`. -/
def startsWithChars : List Char → List Char → Bool
  | [], _ => true
  | _ :: _, [] => false
  | a :: as, b :: bs => a == b && startsWithChars as bs

/-- Core of Python `str.split(sep)` over character lists; the fuel argument is
the length of the scanned text, consumed one character per step. -/
def pySplitCore (sep : List Char) : Nat → List Char → List Char → List (List Char)
  | _, cur, [] => [cur.reverse]
  | 0, cur, rest => [cur.reverse ++ rest]
  | Nat.succ fuel, cur, c :: cs =>
    if startsWithChars sep (c :: cs) then
      cur.reverse :: pySplitCore sep fuel [] (List.drop sep.length (c :: cs))
    else
      pySplitCore sep fuel (c :: cur) cs

/-- Python `s.split(sep)` for a non-empty separator. -/
def pySplit (sep s : String) : List String :=
  (pySplitCore sep.data s.data.length [] s.data).map String.mk

/-- Core of Python `str.split(sep, 1)`: the first split point, if any. -/
def pySplitOnceCore (sep : List Char) : Nat → List Char → List Char → Option (List Char × List Char)
  | _, _, [] => Option.none
  | 0, _, _ => Option.none
  | Nat.succ fuel, cur, c :: cs =>
    if startsWithChars sep (c :: cs) then
      some (cur.reverse, List.drop sep.length (c :: cs))
    else
      pySplitOnceCore sep fuel (c :: cur) cs

/-- Python `s.split(sep, 1)`, returning the tail part only when the separator
occurs (dynamorm catches the ValueError of unpacking a 1-element split). -/
def pySplitOnce (sep s : String) : String × Option String :=
  match pySplitOnceCore sep.data s.data.length [] s.data with
  | some (a, b) => (String.mk a, some (String.mk b))
  | Option.none => (s, Option.none)

mutual
/-- `table.remove_nones`: recursively drop dict entries whose value is None.
`six.iteritems` raises AttributeError on non-dicts, which the source catches
and returns the value unchanged (so lists are not traversed). -/
def remove_nones : PyVal → PyVal
  | PyVal.dict kvs => PyVal.dict (removeNonesItems kvs)
  | v => v

/-- The dict comprehension inside `remove_nones`. -/
def removeNonesItems : List (String × PyVal) → List (String × PyVal)
  | [] => []
  | (k, v) :: rest =>
    if v.isNone then removeNonesItems rest
    else (k, remove_nones v) :: removeNonesItems rest
end

mutual
/-- Analysis predicate: no dict entry reachable through nested dicts has a
None value. -/
def deepNoNone : PyVal → Bool
  | PyVal.dict kvs => deepNoNoneItems kvs
  | _ => true

/-- `deepNoNone` over the entries of a dict. -/
def deepNoNoneItems : List (String × PyVal) → Bool
  | [] => true
  | (_, v) :: rest => (!v.isNone) && deepNoNone v && deepNoNoneItems rest
end

/-- Python exceptions raised by the embedded code paths. -/
inductive PyErr where
  | attributeError : PyErr
  | typeError : PyErr
  | assertionError : PyErr
  | keyError : PyErr
  | indexError : PyErr
  | valueError : PyErr
  | invalidSchemaField : PyErr
  deriving DecidableEq

/-- Which boto3 condition namespace an attribute object lives in:
`boto3.dynamodb.conditions.Key` or `boto3.dynamodb.conditions.Attr`. -/
inductive AttrKind where
  | key : AttrKind
  | attr : AttrKind
  deriving DecidableEq

/-- Argument count of each method of `boto3.dynamodb.conditions.Attr`
(`AttributeBase` methods plus the Attr-only ones); `Option.none` means the
method does not exist, so `getattr` raises AttributeError. -/
def attrArity : String → Option Nat
  | "eq" => some 1
  | "ne" => some 1
  | "lt" => some 1
  | "lte" => some 1
  | "gt" => some 1
  | "gte" => some 1
  | "begins_with" => some 1
  | "is_in" => some 1
  | "contains" => some 1
  | "attribute_type" => some 1
  | "between" => some 2
  | "exists" => some 0
  | "not_exists" => some 0
  | "size" => some 0
  | _ => Option.none

/-- Argument count of each method of `boto3.dynamodb.conditions.Key`
(only the `AttributeBase` methods). -/
def keyArity : String → Option Nat
  | "eq" => some 1
  | "lt" => some 1
  | "lte" => some 1
  | "gt" => some 1
  | "gte" => some 1
  | "begins_with" => some 1
  | "between" => some 2
  | _ => Option.none

/-- Method arity lookup for either condition namespace. -/
def methodArity : AttrKind → String → Option Nat
  | AttrKind.key, op => keyArity op
  | AttrKind.attr, op => attrArity op

/-- Python `hasattr(Attr(...), s)`: the Attr methods plus the `name` data
attribute (dunder attributes can never arise from a `__`-split part). -/
def hasattrAttr (s : String) : Bool :=
  (attrArity s).isSome || s = "name"

/-- A rendered leaf condition: the attribute namespace, the (possibly
dotted) attribute path, the boto3 method name and its operand values. -/
structure Leaf where
  kind : AttrKind
  name : String
  op : String
  operands : List PyVal

/-- A boto3 condition expression as built by dynamorm: a leaf condition or an
`&` composition (dynamorm's builders never produce `~` or `|`). -/
inductive CondExpr where
  | leaf : Leaf → CondExpr
  | and : CondExpr → CondExpr → CondExpr

/-- Python iterable unpacking `op(*value)`: lists yield their elements,
strings their characters, dicts their keys; other values are not iterable. -/
def iterArgs : PyVal → Option (List PyVal)
  | PyVal.list vs => some vs
  | PyVal.str s => some (s.data.map (fun c => PyVal.str (String.mk [c])))
  | PyVal.dict kvs => some (kvs.map (fun kv => PyVal.str kv.1))
  | _ => Option.none

/-- `table.get_expression(attr, op, value)`: look the operator up on the
attribute object (AttributeError if absent; the `name` data attribute is
found but not callable), call it with `value`, and on arity mismatch retry
with no argument when `value is True` or with `value` unpacked when it is
iterable, re-raising the TypeError otherwise. -/
def get_expression (k : AttrKind) (name op : String) (value : PyVal) : Except PyErr Leaf :=
  match methodArity k op with
  | Option.none =>
    if op = "name" then Except.error PyErr.typeError
    else Except.error PyErr.attributeError
  | some 1 => Except.ok ⟨k, name, op, [value]⟩
  | some n =>
    if value.isTrue then
      if n = 0 then Except.ok ⟨k, name, op, []⟩ else Except.error PyErr.typeError
    else
      match iterArgs value with
      | some vs =>
        if vs.length = n then Except.ok ⟨k, name, op, vs⟩
        else Except.error PyErr.typeError
      | Option.none => Except.error PyErr.typeError

/-- The `while len(parts)` loop of `Q`: extend the attribute path with parts
that are not Attr attributes, stop at the first part that is one and use it
as the operator (default `eq`); parts left over after that fail the
`assert len(parts) == 0`. -/
def parseAttr : String → List String → Except PyErr (String × String)
  | name, [] => Except.ok (name, "eq")
  | name, p :: rest =>
    if hasattrAttr p then
      if rest = [] then Except.ok (name, p) else Except.error PyErr.assertionError
    else
      parseAttr (name ++ "." ++ p) rest

/-- One entry of the keyword map given to `Q`: split the key on `__`, parse
the nested path and operator, and build the leaf condition. -/
def Qentry (kv : String × PyVal) : Except PyErr Leaf :=
  match pySplit "__" kv.1 with
  | [] => Except.error PyErr.valueError
  | base :: rest =>
    match parseAttr base rest with
    | Except.error e => Except.error e
    | Except.ok (name, op) => get_expression AttrKind.attr name op kv.2

/-- `expression & attr_expression` with the initial-None TypeError caught:
the first condition replaces None, later ones are AND-ed on the right. -/
def andOpt : Option CondExpr → CondExpr → CondExpr
  | Option.none, c => c
  | some e, c => CondExpr.and e c

/-- The `while len(mapping)` loop of `Q` over the remaining entries (already
put in pop order) with the expression accumulator. -/
def Qfold : List (String × PyVal) → Option CondExpr → Except PyErr (Option CondExpr)
  | [], e => Except.ok e
  | kv :: rest, e =>
    match Qentry kv with
    | Except.error err => Except.error err
    | Except.ok lf => Qfold rest (some (andOpt e (CondExpr.leaf lf)))

/-- `table.Q(**mapping)`: AND together one leaf condition per entry.
`dict.popitem` pops entries in reverse insertion order, hence the reverse;
an empty mapping yields no condition (`Option.none`). -/
def Q (mapping : List (String × PyVal)) : Except PyErr (Option CondExpr) :=
  Qfold mapping.reverse Option.none

/-- The leaf conditions of an expression, left to right. -/
def leaves : CondExpr → List Leaf
  | CondExpr.leaf l => [l]
  | CondExpr.and a b => leaves a ++ leaves b

/-- `leaves` through the no-condition sentinel. -/
def leavesOpt : Option CondExpr → List Leaf
  | Option.none => []
  | some e => leaves e

/-- The key layout of a `DynamoTable3`: its hash key, optional range key and
its indexes as (index name, hash key, optional range key) triples. -/
structure TableDesc where
  hashKey : String
  rangeKey : Option String
  indexes : List (String × String × Option String)

/-- `DynamoTable3.table_attribute_fields`: the table's own key attribute
names.  The source builds a python set; membership is all that is consumed,
so the model keeps a list. -/
def table_attribute_fields (t : TableDesc) : List String :=
  [t.hashKey] ++ (match t.rangeKey with | some r => [r] | Option.none => [])

/-- `DynamoTable3.index_attribute_fields`: the key attribute names of the
named index (or of every index when no name is given). -/
def index_attribute_fields (t : TableDesc) (indexName : Option String) : List String :=
  t.indexes.foldl
    (fun fields idx =>
      match indexName with
      | some n =>
        if idx.1 ≠ n then fields
        else fields ++ [idx.2.1] ++ (match idx.2.2 with | some r => [r] | Option.none => [])
      | Option.none =>
        fields ++ [idx.2.1] ++ (match idx.2.2 with | some r => [r] | Option.none => []))
    []

/-- The attribute set `query` classifies against: the index's key fields when
`query_kwargs` carries an `IndexName`, the table's own otherwise. -/
def queryFields (t : TableDesc) (indexName : Option String) : List String :=
  match indexName with
  | some _ => index_attribute_fields t indexName
  | Option.none => table_attribute_fields t

/-- The `full_key.split('__')` unpacking in `query`: exactly two parts give
(attribute, operator); any other shape raises ValueError, caught as
(full key, eq). -/
def entrySplit (k : String) : String × String :=
  match pySplit "__" k with
  | [a, b] => (a, b)
  | _ => (k, "eq")

/-- The request `query` hands to `table.query`. -/
structure QueryRequest where
  keyConditionExpression : CondExpr
  filterExpression : Option CondExpr

/-- The `while len(kwargs)` loop of `query` (entries already in pop order):
key-attribute entries are AND-ed into the key condition through
`Key`/`get_expression`, all other entries are stashed for the filter. -/
def queryLoop (fields : List String) :
    List (String × PyVal) → List (String × PyVal) → Option CondExpr →
    Except PyErr (List (String × PyVal) × Option CondExpr)
  | [], filters, kce => Except.ok (filters, kce)
  | (fullKey, value) :: rest, filters, kce =>
    let ko := entrySplit fullKey
    if ko.1 ∈ fields then
      match get_expression AttrKind.key ko.1 ko.2 value with
      | Except.error e => Except.error e
      | Except.ok lf => queryLoop fields rest filters (some (andOpt kce (CondExpr.leaf lf)))
    else
      queryLoop fields rest (filters ++ [(fullKey, value)]) kce

/-- `filter_expression & arg` over the positional arguments, with the
initial-None TypeError caught. -/
def foldArgs (f : Option CondExpr) (args : List CondExpr) : Option CondExpr :=
  args.foldl (fun acc a => some (andOpt acc a)) f

/-- `DynamoTable3.query` up to the store dispatch: classify the keyword map
into key conditions and filters, fail with InvalidSchemaField
("Primary key must be specified for queries") when no key condition was
built, then attach `Q` of the filter entries and the positional conditions.
An error means `table.query` is never called. -/
def query (t : TableDesc) (indexName : Option String) (args : List CondExpr)
    (kwargs : List (String × PyVal)) : Except PyErr QueryRequest :=
  match queryLoop (queryFields t indexName) kwargs.reverse [] Option.none with
  | Except.error e => Except.error e
  | Except.ok (_, Option.none) => Except.error PyErr.invalidSchemaField
  | Except.ok (filters, some kce) =>
    match Q filters with
    | Except.error e => Except.error e
    | Except.ok fexpr => Except.ok ⟨kce, foldArgs fexpr args⟩

/-- The request `scan` hands to `table.scan`. -/
structure ScanRequest where
  filterExpression : Option CondExpr

/-- `DynamoTable3.scan` up to the store dispatch: no key conditions, just `Q`
of the keyword map AND-ed with the positional conditions. -/
def scan (args : List CondExpr) (kwargs : List (String × PyVal)) :
    Except PyErr ScanRequest :=
  match Q kwargs with
  | Except.error e => Except.error e
  | Except.ok f => Except.ok ⟨foldArgs f args⟩

/-- Python dict item assignment `m[k] = v` on an insertion-ordered dict. -/
def dictAssign {α : Type} (m : List (String × α)) (k : String) (v : α) :
    List (String × α) :=
  if m.any (fun kv => kv.1 = k) then
    m.map (fun kv => if kv.1 = k then (k, v) else kv)
  else
    m ++ [(k, v)]

/-- `UPDATE_FUNCTION_TEMPLATES[function].format(key)`: the SET fragment for
one non-key field; `Option.none` models the KeyError for an unknown tag. -/
def updateTemplate (fn : Option String) (key : String) : Option String :=
  match fn with
  | Option.none => some ("#uk_" ++ key ++ " = :uv_" ++ key)
  | some "append" => some ("#uk_" ++ key ++ " = list_append(#uk_" ++ key ++ ", :uv_" ++ key ++ ")")
  | some "plus" => some ("#uk_" ++ key ++ " = #uk_" ++ key ++ " + :uv_" ++ key)
  | some "minus" => some ("#uk_" ++ key ++ " = #uk_" ++ key ++ " - :uv_" ++ key)
  | some "if_not_exists" => some ("#uk_" ++ key ++ " = if_not_exists(#uk_" ++ key ++ ", :uv_" ++ key ++ ")")
  | some _ => Option.none

/-- The request `update` hands to `table.update_item`. -/
structure UpdateRequest where
  updateKey : List (String × PyVal)
  updateExpression : String
  exprNames : List (String × String)
  exprVals : List (String × PyVal)
  conditionExpression : Option CondExpr

/-- The `for key, value in six.iteritems(kwargs)` loop of `update`, in
insertion order: split off the `__` function tag, reject fields absent from
the schema, route hash/range fields into the update key and everything else
into SET fragments with `#uk_`/`:uv_` placeholders. -/
def updateLoop (t : TableDesc) (schemaFields : List String) :
    List (String × PyVal) → List (String × PyVal) → List String →
    List (String × String) → List (String × PyVal) →
    Except PyErr (List (String × PyVal) × List String × List (String × String) × List (String × PyVal))
  | [], uk, uf, en, ev => Except.ok (uk, uf, en, ev)
  | (k0, v) :: rest, uk, uf, en, ev =>
    let kf := pySplitOnce "__" k0
    if kf.1 ∈ schemaFields then
      if kf.1 = t.hashKey ∨ t.rangeKey = some kf.1 then
        updateLoop t schemaFields rest (dictAssign uk kf.1 v) uf en ev
      else
        match updateTemplate kf.2 kf.1 with
        | some frag =>
          updateLoop t schemaFields rest uk (uf ++ [frag])
            (dictAssign en ("#uk_" ++ kf.1) kf.1)
            (dictAssign ev (":uv_" ++ kf.1) v)
        | Option.none => Except.error PyErr.keyError
    else
      Except.error PyErr.invalidSchemaField

/-- `DynamoTable3.update` up to the store dispatch, with a mapping-shaped
`conditions` argument (the dict branch of the source).  An error means
`table.update_item` is never called. -/
def update (t : TableDesc) (schemaFields : List String)
    (conditions : List (String × PyVal)) (kwargs : List (String × PyVal)) :
    Except PyErr UpdateRequest :=
  match updateLoop t schemaFields kwargs [] [] [] [] with
  | Except.error e => Except.error e
  | Except.ok (uk, uf, en, ev) =>
    match Q conditions with
    | Except.error e => Except.error e
    | Except.ok cond =>
      Except.ok ⟨uk, "SET " ++ String.intercalate ", " uf, en, ev, cond⟩

/-- A boto3 store error: a `botocore.exceptions.ClientError` carrying its
error code, or any other exception. -/
inductive StoreErr where
  | clientError : String → StoreErr
  | otherError : String → StoreErr
  deriving DecidableEq

/-- The payload of a `table.put_item` call. -/
structure PutRequest where
  item : PyVal
  conditionExpression : Option String

/-- The store capability consumed by `put`: a `put_item` dispatcher that
either succeeds with a response or fails with a store error. -/
abbrev PutStore := PutRequest → Except StoreErr Nat

/-- `DynamoTable3.put`: send the item with its None-valued keys removed. -/
def put (store : PutStore) (item : PyVal) (cond : Option String) :
    Except StoreErr Nat :=
  store ⟨remove_nones item, cond⟩

/-- `DynamoTable3.put_batch`: the sequence of `Item=` payloads written. -/
def put_batch (items : List PyVal) : List PyVal :=
  items.map remove_nones

/-- The error surface of `put_unique`: the translated duplicate-key error or
a store error propagated unchanged. -/
inductive PutErr where
  | hashKeyExists : PutErr
  | raw : StoreErr → PutErr
  deriving DecidableEq

/-- `DynamoTable3.put_unique`: `put` with the attribute-not-exists condition
on the hash key; a ClientError with code ConditionalCheckFailedException
becomes HashKeyExists, every other error re-raises unchanged. -/
def put_unique (hashKey : String) (store : PutStore) (item : PyVal) :
    Except PutErr Nat :=
  match put store item (some ("attribute_not_exists(" ++ hashKey ++ ")")) with
  | Except.ok r => Except.ok r
  | Except.error (StoreErr.clientError code) =>
    if code = "ConditionalCheckFailedException" then Except.error PutErr.hashKeyExists
    else Except.error (PutErr.raw (StoreErr.clientError code))
  | Except.error e => Except.error (PutErr.raw e)

/-- The `scan_kwargs`/`query_kwargs` dict a `ReadIterator` mutates and passes
to every store request: the fields the iterator itself touches.  Items are
modeled as naturals, continuation cursors (`LastEvaluatedKey` dicts) as
naturals too. -/
structure DynamoKwargs where
  exclusiveStartKey : Option Nat
  limit : Option Nat
  select : Option String
  deriving DecidableEq

/-- One boto3 query/scan response: the `Items` list (absent under
`Select='COUNT'`), the `Count`, and the optional `LastEvaluatedKey`. -/
structure Response where
  items : Option (List Nat)
  count : Nat
  lastEvaluatedKey : Option Nat
  deriving DecidableEq

/-- The store capability behind `ReadIterator._get_resp`: the scan or query
method applied to the current request kwargs. -/
abbrev Store := DynamoKwargs → Response

/-- The mutable state of a `ReadIterator`: the request kwargs, the
`_recursive` flag, the last-seen continuation cursor, the current response
page and the offset into it.  (The `_partial` materialization flag only
affects model construction and is outside this model.) -/
structure IterState where
  dynamoKwargs : DynamoKwargs
  recursiveFlag : Bool
  last : Option Nat
  resp : Option Response
  index : Int
  deriving DecidableEq

/-- A fresh `ReadIterator`: no response, offset -1, no cursor, not
recursive. -/
def initIter (dk : DynamoKwargs) : IterState :=
  ⟨dk, false, Option.none, Option.none, -1⟩

/-- `ReadIterator.recursive()`. -/
def setRecursive (s : IterState) : IterState :=
  {s with recursiveFlag := true}

/-- `ReadIterator.limit(n)`: sets `Limit` in the request kwargs. -/
def limitOp (n : Nat) (s : IterState) : IterState :=
  {s with dynamoKwargs := {s.dynamoKwargs with limit := some n}}

/-- `ReadIterator.start(last)`: sets `ExclusiveStartKey` in the request
kwargs. -/
def start (last : Nat) (s : IterState) : IterState :=
  {s with dynamoKwargs := {s.dynamoKwargs with exclusiveStartKey := some last}}

/-- `ReadIterator.again()`: clear the page state and, when the previous run
left a continuation cursor (`LastEvaluatedKey` dicts are non-empty, so
Python truthiness is presence), resume from it via `start`. -/
def again (s : IterState) : IterState :=
  let s1 : IterState := {s with resp := Option.none, index := -1}
  match s1.last with
  | some c => start c s1
  | Option.none => s1

/-- `ReadIterator.count()`: set `Select='COUNT'` in the (shared) request
kwargs, issue a fresh request — without storing its response — and return
its `Count`. -/
def countOp (store : Store) (s : IterState) : Nat × IterState :=
  let s1 : IterState := {s with dynamoKwargs := {s.dynamoKwargs with select := some "COUNT"}}
  let r := store s1.dynamoKwargs
  (r.count, s1)

/-- Python list indexing `l[i]`, including the negative-index wraparound. -/
def pyListGet (l : List Nat) (i : Int) : Option Nat :=
  if 0 ≤ i then l.get? i.toNat
  else if (-i).toNat ≤ l.length then l.get? (l.length - (-i).toNat) else Option.none

/-- What one `__next__` call produces: an item, StopIteration, a raised
exception, or fuel exhaustion of the model (the source recursion is
unbounded when the store keeps returning cursors). -/
inductive NextRes where
  | item : Nat → NextRes
  | stop : NextRes
  | err : PyErr → NextRes
  | fuelOut : NextRes
  deriving DecidableEq

/-- `ReadIterator.__next__`: fetch a response if none is held (capturing the
continuation cursor), force `_recursive` off when a `Limit` is set, advance
the offset; at the end of the page either stop (not recursive, or no
cursor) or `again()` and retry; otherwise return `Items[index]`. -/
def nextStep (store : Store) : Nat → IterState → NextRes × IterState
  | fuel, s0 =>
    let rs :=
      match s0.resp with
      | Option.none =>
        let r := store s0.dynamoKwargs
        (r, {s0 with resp := some r, last := r.lastEvaluatedKey})
      | some r => (r, s0)
    let s1 := rs.2
    let s2 := if s1.dynamoKwargs.limit.isSome then {s1 with recursiveFlag := false} else s1
    let s3 := {s2 with index := s2.index + 1}
    if s3.index = (rs.1.count : Int) then
      if ¬ s3.recursiveFlag ∨ s3.last = Option.none then (NextRes.stop, s3)
      else
        match fuel with
        | 0 => (NextRes.fuelOut, s3)
        | Nat.succ fuel => nextStep store fuel (again s3)
    else
      match rs.1.items with
      | Option.none => (NextRes.err PyErr.keyError, s3)
      | some items =>
        match pyListGet items s3.index with
        | some it => (NextRes.item it, s3)
        | Option.none => (NextRes.err PyErr.indexError, s3)

/-- Drive a `ReadIterator` to exhaustion: the items produced in order and
how the iteration ended. -/
def runIter (store : Store) : Nat → IterState → List Nat × NextRes × IterState
  | 0, s => ([], NextRes.fuelOut, s)
  | Nat.succ fuel, s =>
    match nextStep store fuel s with
    | (NextRes.item it, s1) =>
      let rest := runIter store fuel s1
      (it :: rest.1, rest.2)
    | (r, s1) => ([], r, s1)

/-- The three-page store of the specification's read-iterator scenario:
2/2/1 items with continuation cursors on the first two pages. -/
def pagedStore : Store := fun dk =>
  match dk.exclusiveStartKey with
  | Option.none => ⟨some [1, 2], 2, some 1⟩
  | some 1 => ⟨some [3, 4], 2, some 2⟩
  | some _ => ⟨some [5], 1, Option.none⟩

/-- A store that honours `Select='COUNT'`: count-only requests come back
without an `Items` key, ordinary requests return two items. -/
def countingStore : Store := fun dk =>
  if dk.select = some "COUNT" then ⟨Option.none, 2, Option.none⟩
  else ⟨some [10, 20], 2, Option.none⟩

/-- The empty request kwargs every iterator in the scenarios starts from. -/
def emptyKwargs : DynamoKwargs := ⟨Option.none, Option.none, Option.none⟩

/-- An AND tree always renders at least one leaf condition. -/
theorem leaves_ne_nil (c : CondExpr) : leaves c ≠ [] := by
  induction c with
  | leaf l => simp [leaves]
  | and a b iha ihb => simp [leaves, iha]

/-- Only the no-condition sentinel renders no leaves. -/
theorem leavesOpt_eq_nil {e : Option CondExpr} (h : leavesOpt e = []) :
    e = Option.none := by
  cases e with
  | none => rfl
  | some c => exact absurd h (leaves_ne_nil c)

/-- `andOpt` appends the new condition's leaves on the right. -/
theorem leaves_andOpt (e : Option CondExpr) (c : CondExpr) :
    leaves (andOpt e c) = leavesOpt e ++ leaves c := by
  cases e <;> simp [andOpt, leaves, leavesOpt]

/-- C1: against a store returning three pages of 2/2/1 items with
continuation cursors on pages 1 and 2 only, a recursive iterator yields
exactly the five items in page/offset order and then ends with
StopIteration; a non-recursive iterator yields only the first page's two
items and then ends, although its state still holds the page-1 continuation
cursor. -/
theorem read_iterator_three_pages :
    (runIter pagedStore 30 (setRecursive (initIter emptyKwargs))).1 = [1, 2, 3, 4, 5]
    ∧ (runIter pagedStore 30 (setRecursive (initIter emptyKwargs))).2.1 = NextRes.stop
    ∧ (runIter pagedStore 30 (initIter emptyKwargs)).1 = [1, 2]
    ∧ (runIter pagedStore 30 (initIter emptyKwargs)).2.1 = NextRes.stop
    ∧ (runIter pagedStore 30 (initIter emptyKwargs)).2.2.last = some 1 := by
  refine ⟨?_, ?_, ?_, ?_, ?_⟩ <;>
    simp [runIter, nextStep, again, start, initIter, setRecursive, emptyKwargs,
      pagedStore, pyListGet]

/-- C6 (amended): `count()` issues a dedicated count-only request and
returns its Count, leaving the held page, the offset into it and the
last-seen continuation cursor untouched — but it permanently sets
`Select='COUNT'` in the iterator's request kwargs, so every later request
the same iterator issues is also count-only. -/
theorem count_preserves_paging_fields (store : Store) (s : IterState) :
    (countOp store s).2.resp = s.resp
    ∧ (countOp store s).2.index = s.index
    ∧ (countOp store s).2.last = s.last
    ∧ (countOp store s).2.recursiveFlag = s.recursiveFlag
    ∧ (countOp store s).2.dynamoKwargs = {s.dynamoKwargs with select := some "COUNT"}
    ∧ (countOp store s).1 = (store {s.dynamoKwargs with select := some "COUNT"}).count := by
  exact ⟨rfl, rfl, rfl, rfl, rfl, rfl⟩

/-- C6 (counterexample): against a store that honours `Select='COUNT'` by
returning no `Items`, a fresh iterator's first `next()` yields an item, but
after `count()` the same `next()` raises KeyError — subsequent iteration
does not behave as if `count()` had not been called. -/
theorem count_select_mutation_counterexample :
    (countOp countingStore (initIter emptyKwargs)).1 = 2
    ∧ (nextStep countingStore 5 (initIter emptyKwargs)).1 = NextRes.item 10
    ∧ (nextStep countingStore 5 (countOp countingStore (initIter emptyKwargs)).2).1
        = NextRes.err PyErr.keyError := by
  refine ⟨?_, ?_, ?_⟩ <;>
    simp [countOp, nextStep, initIter, emptyKwargs, countingStore, pyListGet]

/-- C9: `again()` clears the page state (response and offset); when the
previous run left a continuation cursor it is written into
`ExclusiveStartKey` so the next request resumes there, and otherwise the
request kwargs are left exactly as they were, so the identical request is
re-issued. -/
theorem again_resets_and_resumes (s : IterState) :
    (again s).resp = Option.none
    ∧ (again s).index = -1
    ∧ (again s).last = s.last
    ∧ (again s).recursiveFlag = s.recursiveFlag
    ∧ (again s).dynamoKwargs =
        (match s.last with
          | some c => {s.dynamoKwargs with exclusiveStartKey := some c}
          | Option.none => s.dynamoKwargs) := by
  cases h : s.last <;> simp [again, start, h]

/-- C7: when the store reports a ClientError with code
ConditionalCheckFailedException for the attribute-not-exists put,
`put_unique` raises HashKeyExists; any other store error is re-raised
unchanged. -/
theorem put_unique_maps_conditional_failure (hk : String) (store : PutStore) (item : PyVal) :
    (store ⟨remove_nones item, some ("attribute_not_exists(" ++ hk ++ ")")⟩
        = Except.error (StoreErr.clientError "ConditionalCheckFailedException")
      → put_unique hk store item = Except.error PutErr.hashKeyExists)
    ∧ (∀ e : StoreErr,
        store ⟨remove_nones item, some ("attribute_not_exists(" ++ hk ++ ")")⟩ = Except.error e
        → e ≠ StoreErr.clientError "ConditionalCheckFailedException"
        → put_unique hk store item = Except.error (PutErr.raw e)) := by
  constructor
  · intro h
    simp [put_unique, put, h]
  · intro e h hne
    cases e with
    | clientError code =>
      have hcode : code ≠ "ConditionalCheckFailedException" := by
        intro hc; exact hne (by rw [hc])
      simp [put_unique, put, h, hcode]
    | otherError msg =>
      simp [put_unique, put, h]

/-- Witness for `put_unique_maps_conditional_failure` at a concrete table,
item and store for each of the two hypotheses. -/
theorem put_unique_maps_conditional_failure_witness :
    put_unique "id" (fun _ => Except.error (StoreErr.clientError "ConditionalCheckFailedException"))
        (PyVal.dict []) = Except.error PutErr.hashKeyExists
    ∧ put_unique "id" (fun _ => Except.error (StoreErr.otherError "boom"))
        (PyVal.dict []) = Except.error (PutErr.raw (StoreErr.otherError "boom")) := by
  constructor
  · exact (put_unique_maps_conditional_failure "id"
      (fun _ => Except.error (StoreErr.clientError "ConditionalCheckFailedException"))
      (PyVal.dict [])).1 rfl
  · exact (put_unique_maps_conditional_failure "id"
      (fun _ => Except.error (StoreErr.otherError "boom"))
      (PyVal.dict [])).2 (StoreErr.otherError "boom") rfl (by intro h; cases h)

/-- `remove_nones` never turns a non-None value into None. -/
theorem isNone_remove_nones (v : PyVal) (h : v.isNone = false) :
    (remove_nones v).isNone = false := by
  cases v <;> simp_all [remove_nones, PyVal.isNone]

mutual
/-- After `remove_nones` no dict entry reachable through nested dicts holds
None. -/
theorem deepNoNone_remove_nones : (v : PyVal) → deepNoNone (remove_nones v) = true
  | PyVal.none => by simp [remove_nones, deepNoNone]
  | PyVal.bool b => by simp [remove_nones, deepNoNone]
  | PyVal.int i => by simp [remove_nones, deepNoNone]
  | PyVal.str s => by simp [remove_nones, deepNoNone]
  | PyVal.list l => by simp [remove_nones, deepNoNone]
  | PyVal.dict kvs => by
    simpa [remove_nones, deepNoNone] using deepNoNoneItems_removeNonesItems kvs

/-- Entry-list version of `deepNoNone_remove_nones`. -/
theorem deepNoNoneItems_removeNonesItems :
    (kvs : List (String × PyVal)) → deepNoNoneItems (removeNonesItems kvs) = true
  | [] => by simp [removeNonesItems, deepNoNoneItems]
  | (k, v) :: rest => by
    by_cases h : v.isNone = true
    · simpa [removeNonesItems, h] using deepNoNoneItems_removeNonesItems rest
    · have h0 : v.isNone = false := by simpa using h
      have h1 := deepNoNone_remove_nones v
      have h2 := deepNoNoneItems_removeNonesItems rest
      have h3 := isNone_remove_nones v h0
      simp [removeNonesItems, h0, deepNoNoneItems, h1, h2, h3]
end

/-- Every entry with a non-None value survives `remove_nones`, with its value
cleaned recursively. -/
theorem mem_removeNonesItems_of_mem :
    ∀ {kvs : List (String × PyVal)} {k : String} {v : PyVal},
      (k, v) ∈ kvs → v.isNone = false →
      (k, remove_nones v) ∈ removeNonesItems kvs := by
  intro kvs
  induction kvs with
  | nil => intro k v h _; cases h
  | cons kv rest ih =>
    intro k v h hv
    rcases kv with ⟨k0, v0⟩
    rcases List.mem_cons.mp h with heq | hrest
    · cases heq
      simp [removeNonesItems, hv]
    · by_cases h0 : v0.isNone = true
      · simpa [removeNonesItems, h0] using ih hrest hv
      · have h0f : v0.isNone = false := by simpa using h0
        simp only [removeNonesItems, h0f, if_neg]
        exact List.mem_cons.mpr (Or.inr (ih hrest hv))

/-- Every entry of the cleaned dict comes from an entry of the original with
a non-None value. -/
theorem of_mem_removeNonesItems :
    ∀ {kvs : List (String × PyVal)} {k : String} {w : PyVal},
      (k, w) ∈ removeNonesItems kvs →
      ∃ v, (k, v) ∈ kvs ∧ v.isNone = false ∧ w = remove_nones v := by
  intro kvs
  induction kvs with
  | nil => intro k w h; simp [removeNonesItems] at h
  | cons kv rest ih =>
    intro k w h
    rcases kv with ⟨k0, v0⟩
    by_cases h0 : v0.isNone = true
    · rcases ih (by simpa [removeNonesItems, h0] using h) with ⟨v, hv, hvn, hw⟩
      exact ⟨v, List.mem_cons.mpr (Or.inr hv), hvn, hw⟩
    · have h0f : v0.isNone = false := by simpa using h0
      simp only [removeNonesItems, h0f, if_neg] at h
      rcases List.mem_cons.mp h with heq | hrest
      · have hk : k = k0 ∧ w = remove_nones v0 := (Prod.mk.injEq _ _ _ _).mp heq
        exact ⟨v0, by simp [hk.1], h0f, hk.2⟩
      · rcases ih hrest with ⟨v, hv, hvn, hw⟩
        exact ⟨v, List.mem_cons.mpr (Or.inr hv), hvn, hw⟩

/-- C10: `put` and `put_batch` send items through `remove_nones`, which
removes exactly the None-valued keys — recursively through nested dicts —
and keeps every other entry (its value cleaned the same way); afterwards no
dict reachable through nested dicts holds a None value. -/
theorem put_removes_none_values :
    (∀ (store : PutStore) (item : PyVal) (cond : Option String),
      put store item cond = store ⟨remove_nones item, cond⟩)
    ∧ (∀ items : List PyVal, put_batch items = items.map remove_nones)
    ∧ (∀ kvs : List (String × PyVal),
      remove_nones (PyVal.dict kvs) = PyVal.dict (removeNonesItems kvs))
    ∧ (∀ (kvs : List (String × PyVal)) (k : String) (v : PyVal),
      (k, v) ∈ kvs → v.isNone = false →
      (k, remove_nones v) ∈ removeNonesItems kvs)
    ∧ (∀ (kvs : List (String × PyVal)) (k : String) (w : PyVal),
      (k, w) ∈ removeNonesItems kvs →
      ∃ v, (k, v) ∈ kvs ∧ v.isNone = false ∧ w = remove_nones v)
    ∧ (∀ v : PyVal, deepNoNone (remove_nones v) = true) := by
  refine ⟨fun _ _ _ => rfl, fun _ => rfl, fun kvs => by simp [remove_nones], ?_, ?_, ?_⟩
  · intro kvs k v h hv
    exact mem_removeNonesItems_of_mem h hv
  · intro kvs k w h
    exact of_mem_removeNonesItems h
  · exact deepNoNone_remove_nones

/-- Witness for `put_removes_none_values` on a concrete item: the non-None
entry survives the cleanup of a dict that also holds a None entry. -/
theorem put_removes_none_values_witness :
    ("a", PyVal.int 1) ∈ [("z", PyVal.none), ("a", PyVal.int 1)]
    ∧ (PyVal.int 1).isNone = false
    ∧ ("a", remove_nones (PyVal.int 1)) ∈
        removeNonesItems [("z", PyVal.none), ("a", PyVal.int 1)] := by
  refine ⟨by simp, by simp [PyVal.isNone], ?_⟩
  exact put_removes_none_values.2.2.2.1 [("z", PyVal.none), ("a", PyVal.int 1)]
    "a" (PyVal.int 1) (by simp) (by simp [PyVal.isNone])

/-- When every entry builds a leaf, `Qfold` succeeds and renders the
accumulator's leaves followed by one leaf per entry, in processing order. -/
theorem Qfold_ok :
    ∀ (l : List (String × PyVal)) (acc : Option CondExpr),
      (∀ kv ∈ l, (Qentry kv).isOk) →
      ∃ e, Qfold l acc = Except.ok e
        ∧ leavesOpt e = leavesOpt acc ++ l.filterMap (fun kv => (Qentry kv).toOption) := by
  intro l
  induction l with
  | nil => intro acc _; exact ⟨acc, rfl, by simp [Qfold]⟩
  | cons kv rest ih =>
    intro acc h
    have hkv := h kv (List.mem_cons_self kv rest)
    obtain ⟨lf, hlf⟩ : ∃ lf, Qentry kv = Except.ok lf := by
      cases hq : Qentry kv with
      | ok lf => exact ⟨lf, rfl⟩
      | error e => rw [hq] at hkv; simp [Except.isOk, Except.toBool] at hkv
    obtain ⟨e, he, hl⟩ :=
      ih (some (andOpt acc (CondExpr.leaf lf)))
        (fun kv' h' => h kv' (List.mem_cons_of_mem _ h'))
    refine ⟨e, by simp [Qfold, hlf, he], ?_⟩
    rw [hl]
    simp [leavesOpt, leaves_andOpt, hlf, Except.toOption, leaves, List.filterMap_cons]

/-- When every entry builds a leaf, `Q` succeeds and renders one leaf per
entry, in pop (reverse insertion) order. -/
theorem Q_ok (l : List (String × PyVal)) (h : ∀ kv ∈ l, (Qentry kv).isOk) :
    ∃ e, Q l = Except.ok e
      ∧ leavesOpt e = l.reverse.filterMap (fun kv => (Qentry kv).toOption) := by
  obtain ⟨e, he, hl⟩ :=
    Qfold_ok l.reverse Option.none (fun kv hm => h kv (List.mem_reverse.mp hm))
  exact ⟨e, he, by simpa [leavesOpt] using hl⟩

/-- C8: for keyword maps with only AND-able entries (each entry builds its
leaf condition), `Q` built under any enumeration order succeeds, and the
rendered expressions are equivalent: their leaf conditions are permutations
of each other, i.e. the same AND-set. -/
theorem q_and_order_independence (l1 l2 : List (String × PyVal))
    (hperm : l1.Perm l2) (h : ∀ kv ∈ l1, (Qentry kv).isOk) :
    ∃ e1 e2, Q l1 = Except.ok e1 ∧ Q l2 = Except.ok e2
      ∧ (leavesOpt e1).Perm (leavesOpt e2) := by
  have h2 : ∀ kv ∈ l2, (Qentry kv).isOk := fun kv hm => h kv (hperm.mem_iff.mpr hm)
  obtain ⟨e1, he1, hl1⟩ := Q_ok l1 h
  obtain ⟨e2, he2, hl2⟩ := Q_ok l2 h2
  refine ⟨e1, e2, he1, he2, ?_⟩
  rw [hl1, hl2]
  exact ((l1.reverse_perm.trans hperm).trans l2.reverse_perm.symm).filterMap _

/-- Witness for `q_and_order_independence`: a concrete two-entry map and its
transposition. -/
theorem q_and_order_independence_witness :
    [("a", PyVal.int 1), ("b", PyVal.int 2)].Perm [("b", PyVal.int 2), ("a", PyVal.int 1)]
    ∧ (∀ kv ∈ [("a", PyVal.int 1), ("b", PyVal.int 2)], (Qentry kv).isOk)
    ∧ ∃ e1 e2, Q [("a", PyVal.int 1), ("b", PyVal.int 2)] = Except.ok e1
        ∧ Q [("b", PyVal.int 2), ("a", PyVal.int 1)] = Except.ok e2
        ∧ (leavesOpt e1).Perm (leavesOpt e2) := by
  have hperm : [("a", PyVal.int 1), ("b", PyVal.int 2)].Perm
      [("b", PyVal.int 2), ("a", PyVal.int 1)] :=
    List.Perm.swap ("b", PyVal.int 2) ("a", PyVal.int 1) []
  have h : ∀ kv ∈ [("a", PyVal.int 1), ("b", PyVal.int 2)], (Qentry kv).isOk := by
    intro kv hm
    rcases List.mem_cons.mp hm with rfl | hm1
    · rfl
    · rcases List.mem_cons.mp hm1 with rfl | hm2
      · rfl
      · cases hm2
  exact ⟨hperm, h, q_and_order_independence _ _ hperm h⟩

/-- A successful `Except` holds a value. -/
theorem isOk_exists {ε α : Type} {x : Except ε α} (h : x.isOk) :
    ∃ a, x = Except.ok a := by
  cases x with
  | ok a => exact ⟨a, rfl⟩
  | error e => simp [Except.isOk, Except.toBool] at h

/-- When every key-attribute entry builds its `Key` leaf, the `query` loop
succeeds: the non-key entries are appended to the filter stash in processing
order and the key condition renders one leaf per key entry, in processing
order. -/
theorem queryLoop_ok (fields : List String) :
    ∀ (l filters : List (String × PyVal)) (kce : Option CondExpr),
      (∀ kv ∈ l, (entrySplit kv.1).1 ∈ fields →
        (get_expression AttrKind.key (entrySplit kv.1).1 (entrySplit kv.1).2 kv.2).isOk) →
      ∃ kce2, queryLoop fields l filters kce
          = Except.ok (filters ++ l.filter (fun kv => !decide ((entrySplit kv.1).1 ∈ fields)), kce2)
        ∧ leavesOpt kce2 = leavesOpt kce
            ++ (l.filter (fun kv => decide ((entrySplit kv.1).1 ∈ fields))).filterMap
                (fun kv => (get_expression AttrKind.key (entrySplit kv.1).1 (entrySplit kv.1).2 kv.2).toOption) := by
  intro l
  induction l with
  | nil => intro filters kce _; exact ⟨kce, by simp [queryLoop], by simp⟩
  | cons hd rest ih =>
    intro filters kce h
    rcases hd with ⟨fullKey, value⟩
    by_cases hk : (entrySplit fullKey).1 ∈ fields
    · obtain ⟨lf, hlf⟩ :=
        isOk_exists (h (fullKey, value) (List.mem_cons_self _ _) hk)
      obtain ⟨kce2, hloop, hleaves⟩ :=
        ih filters (some (andOpt kce (CondExpr.leaf lf)))
          (fun kv hm hmem => h kv (List.mem_cons_of_mem _ hm) hmem)
      refine ⟨kce2, ?_, ?_⟩
      · simpa [queryLoop, hk, hlf, List.filter_cons] using hloop
      · rw [hleaves]
        simp [leavesOpt, leaves_andOpt, hk, hlf, Except.toOption, leaves,
          List.filterMap_cons, List.filter_cons, List.append_assoc]
    · obtain ⟨kce2, hloop, hleaves⟩ :=
        ih (filters ++ [(fullKey, value)]) kce
          (fun kv hm hmem => h kv (List.mem_cons_of_mem _ hm) hmem)
      refine ⟨kce2, ?_, ?_⟩
      · simpa [queryLoop, hk, List.filter_cons, List.append_assoc] using hloop
      · rw [hleaves]
        simp [List.filter_cons, hk]

/-- C3: for every table/index key-attribute set, `query` routes each entry
whose base attribute name (before any `__` operator suffix) is a key
attribute into the key condition — one leaf per entry, AND-ed together —
and every other entry into the filter condition; in particular, for
hash key `id` and range key `ts`, the kwargs {id: "a", ts__gt: 5,
color: "red"} yield key condition {(id eq "a"), (ts gt 5)} and filter
condition {(color eq "red")}. -/
theorem query_key_filter_classification :
    (∀ (t : TableDesc) (idx : Option String) (kwargs : List (String × PyVal)),
      (∀ kv ∈ kwargs, (entrySplit kv.1).1 ∈ queryFields t idx →
        (get_expression AttrKind.key (entrySplit kv.1).1 (entrySplit kv.1).2 kv.2).isOk) →
      (∀ kv ∈ kwargs, (entrySplit kv.1).1 ∉ queryFields t idx → (Qentry kv).isOk) →
      (∃ kv ∈ kwargs, (entrySplit kv.1).1 ∈ queryFields t idx) →
      ∃ req, query t idx [] kwargs = Except.ok req
        ∧ (leaves req.keyConditionExpression).Perm
            ((kwargs.filter (fun kv => decide ((entrySplit kv.1).1 ∈ queryFields t idx))).filterMap
              (fun kv => (get_expression AttrKind.key (entrySplit kv.1).1 (entrySplit kv.1).2 kv.2).toOption))
        ∧ leavesOpt req.filterExpression
            = (kwargs.filter (fun kv => !decide ((entrySplit kv.1).1 ∈ queryFields t idx))).filterMap
                (fun kv => (Qentry kv).toOption))
    ∧ (∃ req, query ⟨"id", some "ts", []⟩ Option.none []
          [("id", PyVal.str "a"), ("ts__gt", PyVal.int 5), ("color", PyVal.str "red")]
        = Except.ok req
      ∧ (leaves req.keyConditionExpression).Perm
          [⟨AttrKind.key, "id", "eq", [PyVal.str "a"]⟩, ⟨AttrKind.key, "ts", "gt", [PyVal.int 5]⟩]
      ∧ leavesOpt req.filterExpression = [⟨AttrKind.attr, "color", "eq", [PyVal.str "red"]⟩]) := by
  constructor
  · intro t idx kwargs hkey hflt hex
    obtain ⟨kce2, hloop, hleaves⟩ :=
      queryLoop_ok (queryFields t idx) kwargs.reverse [] Option.none
        (fun kv hm hmem => hkey kv (List.mem_reverse.mp hm) hmem)
    obtain ⟨kv0, hm0, hk0⟩ := hex
    obtain ⟨lf0, hlf0⟩ := isOk_exists (hkey kv0 hm0 hk0)
    have hmem0 : lf0 ∈ (kwargs.reverse.filter
        (fun kv => decide ((entrySplit kv.1).1 ∈ queryFields t idx))).filterMap
          (fun kv => (get_expression AttrKind.key (entrySplit kv.1).1 (entrySplit kv.1).2 kv.2).toOption) := by
      apply List.mem_filterMap.mpr
      refine ⟨kv0, List.mem_filter.mpr ⟨List.mem_reverse.mpr hm0, by simpa using hk0⟩, ?_⟩
      simp [hlf0, Except.toOption]
    have hne : leavesOpt kce2 ≠ [] := by
      rw [hleaves]
      simp only [leavesOpt, List.nil_append]
      intro hnil
      rw [hnil] at hmem0
      cases hmem0
    obtain ⟨kce, rfl⟩ : ∃ kce, kce2 = some kce := by
      cases kce2 with
      | none => exact absurd rfl hne
      | some kce => exact ⟨kce, rfl⟩
    have hfiltersok : ∀ kv ∈ kwargs.reverse.filter
        (fun kv => !decide ((entrySplit kv.1).1 ∈ queryFields t idx)), (Qentry kv).isOk := by
      intro kv hm
      have h1 := List.mem_filter.mp hm
      exact hflt kv (List.mem_reverse.mp h1.1) (by simpa using h1.2)
    obtain ⟨fexpr, hq, hqleaves⟩ := Q_ok _ hfiltersok
    refine ⟨⟨kce, foldArgs fexpr []⟩, ?_, ?_, ?_⟩
    · rw [List.filter_reverse] at hq
      simp [query, hloop, hq]
    · have hkeq : leaves kce = (kwargs.reverse.filter
          (fun kv => decide ((entrySplit kv.1).1 ∈ queryFields t idx))).filterMap
            (fun kv => (get_expression AttrKind.key (entrySplit kv.1).1 (entrySplit kv.1).2 kv.2).toOption) := by
        simpa [leavesOpt] using hleaves
      show (leaves kce).Perm _
      rw [hkeq, List.filter_reverse]
      exact ((kwargs.filter _).reverse_perm).filterMap _
    · show leavesOpt (foldArgs fexpr []) = _
      rw [show foldArgs fexpr [] = fexpr from rfl, hqleaves, List.filter_reverse,
        List.reverse_reverse]
  · refine ⟨(⟨CondExpr.and
        (CondExpr.leaf ⟨AttrKind.key, "ts", "gt", [PyVal.int 5]⟩)
        (CondExpr.leaf ⟨AttrKind.key, "id", "eq", [PyVal.str "a"]⟩),
      some (CondExpr.leaf ⟨AttrKind.attr, "color", "eq", [PyVal.str "red"]⟩)⟩ : QueryRequest),
      ?_, ?_, ?_⟩
    · rfl
    · exact List.Perm.swap (⟨AttrKind.key, "id", "eq", [PyVal.str "a"]⟩ : Leaf)
        (⟨AttrKind.key, "ts", "gt", [PyVal.int 5]⟩ : Leaf) []
    · rfl

/-- Witness for `query_key_filter_classification` at the concrete table of
the specification's example, discharging the well-formedness hypotheses. -/
theorem query_key_filter_classification_witness :
    (∀ kv ∈ [("id", PyVal.str "a"), ("ts__gt", PyVal.int 5), ("color", PyVal.str "red")],
      (entrySplit kv.1).1 ∈ queryFields ⟨"id", some "ts", []⟩ Option.none →
      (get_expression AttrKind.key (entrySplit kv.1).1 (entrySplit kv.1).2 kv.2).isOk)
    ∧ (∃ req, query ⟨"id", some "ts", []⟩ Option.none []
          [("id", PyVal.str "a"), ("ts__gt", PyVal.int 5), ("color", PyVal.str "red")]
        = Except.ok req
      ∧ (leaves req.keyConditionExpression).Perm
          ((([("id", PyVal.str "a"), ("ts__gt", PyVal.int 5), ("color", PyVal.str "red")]).filter
              (fun kv => decide ((entrySplit kv.1).1 ∈ queryFields ⟨"id", some "ts", []⟩ Option.none))).filterMap
            (fun kv => (get_expression AttrKind.key (entrySplit kv.1).1 (entrySplit kv.1).2 kv.2).toOption))
      ∧ leavesOpt req.filterExpression
          = (([("id", PyVal.str "a"), ("ts__gt", PyVal.int 5), ("color", PyVal.str "red")]).filter
              (fun kv => !decide ((entrySplit kv.1).1 ∈ queryFields ⟨"id", some "ts", []⟩ Option.none))).filterMap
              (fun kv => (Qentry kv).toOption)) := by
  have hkey : ∀ kv ∈ [("id", PyVal.str "a"), ("ts__gt", PyVal.int 5), ("color", PyVal.str "red")],
      (entrySplit kv.1).1 ∈ queryFields ⟨"id", some "ts", []⟩ Option.none →
      (get_expression AttrKind.key (entrySplit kv.1).1 (entrySplit kv.1).2 kv.2).isOk := by
    intro kv hm
    rcases List.mem_cons.mp hm with rfl | hm1
    · intro _; rfl
    · rcases List.mem_cons.mp hm1 with rfl | hm2
      · intro _; rfl
      · rcases List.mem_cons.mp hm2 with rfl | hm3
        · intro hcontra; exact absurd hcontra (by decide)
        · cases hm3
  have hflt : ∀ kv ∈ [("id", PyVal.str "a"), ("ts__gt", PyVal.int 5), ("color", PyVal.str "red")],
      (entrySplit kv.1).1 ∉ queryFields ⟨"id", some "ts", []⟩ Option.none →
      (Qentry kv).isOk := by
    intro kv hm _
    rcases List.mem_cons.mp hm with rfl | hm1
    · rfl
    · rcases List.mem_cons.mp hm1 with rfl | hm2
      · rfl
      · rcases List.mem_cons.mp hm2 with rfl | hm3
        · rfl
        · cases hm3
  have hex : ∃ kv ∈ [("id", PyVal.str "a"), ("ts__gt", PyVal.int 5), ("color", PyVal.str "red")],
      (entrySplit kv.1).1 ∈ queryFields ⟨"id", some "ts", []⟩ Option.none := by
    exact ⟨("id", PyVal.str "a"), List.mem_cons_self _ _, by decide⟩
  exact ⟨hkey, query_key_filter_classification.1 ⟨"id", some "ts", []⟩ Option.none _ hkey hflt hex⟩

/-- C4: a `query` whose keyword map names no key attribute of the target
table or index raises InvalidSchemaField ("Primary key must be specified
for queries") during request compilation, before any store call; `scan` has
no such requirement and builds its request from the same entries. -/
theorem query_missing_key_errors_scan_ok :
    (∀ (t : TableDesc) (idx : Option String) (args : List CondExpr)
        (kwargs : List (String × PyVal)),
      (∀ kv ∈ kwargs, (entrySplit kv.1).1 ∉ queryFields t idx) →
      query t idx args kwargs = Except.error PyErr.invalidSchemaField)
    ∧ (∀ kwargs : List (String × PyVal),
      (∀ kv ∈ kwargs, (Qentry kv).isOk) →
      ∃ r, scan [] kwargs = Except.ok r) := by
  constructor
  · intro t idx args kwargs h
    obtain ⟨kce2, hloop, hleaves⟩ :=
      queryLoop_ok (queryFields t idx) kwargs.reverse [] Option.none
        (fun kv hm hmem => absurd hmem (h kv (List.mem_reverse.mp hm)))
    have hnil : leavesOpt kce2 = [] := by
      rw [hleaves]
      have hempty : kwargs.reverse.filter
          (fun kv => decide ((entrySplit kv.1).1 ∈ queryFields t idx)) = [] := by
        apply List.filter_eq_nil_iff.mpr
        intro kv hm
        simpa using h kv (List.mem_reverse.mp hm)
      simp [hempty, leavesOpt]
    have hkce := leavesOpt_eq_nil hnil
    subst hkce
    simp [query, hloop]
  · intro kwargs h
    obtain ⟨e, he, _⟩ := Q_ok kwargs h
    exact ⟨⟨foldArgs e []⟩, by simp [scan, he]⟩

/-- Witness for `query_missing_key_errors_scan_ok`: a keyword map holding
only the non-key entry `color`. -/
theorem query_missing_key_errors_scan_ok_witness :
    (∀ kv ∈ [("color", PyVal.str "red")],
      (entrySplit kv.1).1 ∉ queryFields ⟨"id", some "ts", []⟩ Option.none)
    ∧ query ⟨"id", some "ts", []⟩ Option.none [] [("color", PyVal.str "red")]
        = Except.error PyErr.invalidSchemaField
    ∧ (∀ kv ∈ [("color", PyVal.str "red")], (Qentry kv).isOk)
    ∧ ∃ r, scan [] [("color", PyVal.str "red")] = Except.ok r := by
  have h1 : ∀ kv ∈ [("color", PyVal.str "red")],
      (entrySplit kv.1).1 ∉ queryFields ⟨"id", some "ts", []⟩ Option.none := by
    intro kv hm
    rcases List.mem_cons.mp hm with rfl | hm1
    · decide
    · cases hm1
  have h2 : ∀ kv ∈ [("color", PyVal.str "red")], (Qentry kv).isOk := by
    intro kv hm
    rcases List.mem_cons.mp hm with rfl | hm1
    · rfl
    · cases hm1
  exact ⟨h1, query_missing_key_errors_scan_ok.1 _ Option.none [] _ h1,
    h2, query_missing_key_errors_scan_ok.2 _ h2⟩

/-- C2 (counterexample): the spec's operator tag `in` is not recognised by
the expression builder — boto3's method is `is_in` — so `color__in` is
parsed as the nested attribute path `color.in` with the default `eq`
operator, not as an `in` leaf condition on `color`. -/
theorem operator_vocabulary_counterexample :
    Q [("color__in", PyVal.list [PyVal.str "r", PyVal.str "g"])]
      = Except.ok (some (CondExpr.leaf ⟨AttrKind.attr, "color.in", "eq",
          [PyVal.list [PyVal.str "r", PyVal.str "g"]]⟩))
    ∧ Q [("color__in", PyVal.list [PyVal.str "r", PyVal.str "g"])]
      ≠ Except.ok (some (CondExpr.leaf ⟨AttrKind.attr, "color", "in",
          [PyVal.list [PyVal.str "r", PyVal.str "g"]]⟩)) := by
  have hA : Q [("color__in", PyVal.list [PyVal.str "r", PyVal.str "g"])]
      = Except.ok (some (CondExpr.leaf ⟨AttrKind.attr, "color.in", "eq",
          [PyVal.list [PyVal.str "r", PyVal.str "g"]]⟩)) := rfl
  refine ⟨hA, ?_⟩
  intro h
  rw [hA] at h
  simp at h

/-- C2 (amended): the operator vocabulary of the filter builder `Q` is
boto3's `Attr` method set — eq, ne, lt, lte, gt, gte, begins_with, is_in,
contains, attribute_type, between, exists, not_exists — each producing a
leaf with that operator on the attribute path, with eq as the default when
no suffix is given; the spec's `in` and `type` are not methods, so `Q`
treats them as nested path segments (an eq leaf on `name.in` / `name.type`).
The query key-condition path supports only the `Key` methods eq, lt, lte,
gt, gte, begins_with, between; every other tag raises AttributeError there. -/
theorem operator_vocabulary_amended (name : String) (v a b : PyVal)
    (hs : ∀ op ∈ (["eq", "ne", "lt", "lte", "gt", "gte", "begins_with", "is_in",
        "contains", "attribute_type", "between", "exists", "not_exists", "in", "type"] : List String),
      pySplit "__" (name ++ "__" ++ op) = [name, op])
    (hp : pySplit "__" name = [name]) :
    (∀ op ∈ (["eq", "ne", "lt", "lte", "gt", "gte", "begins_with", "is_in",
        "contains", "attribute_type"] : List String),
      Qentry (name ++ "__" ++ op, v) = Except.ok ⟨AttrKind.attr, name, op, [v]⟩)
    ∧ Qentry (name ++ "__" ++ "between", PyVal.list [a, b])
        = Except.ok ⟨AttrKind.attr, name, "between", [a, b]⟩
    ∧ Qentry (name ++ "__" ++ "exists", PyVal.bool true)
        = Except.ok ⟨AttrKind.attr, name, "exists", []⟩
    ∧ Qentry (name ++ "__" ++ "not_exists", PyVal.bool true)
        = Except.ok ⟨AttrKind.attr, name, "not_exists", []⟩
    ∧ Qentry (name, v) = Except.ok ⟨AttrKind.attr, name, "eq", [v]⟩
    ∧ Qentry (name ++ "__" ++ "in", v)
        = Except.ok ⟨AttrKind.attr, name ++ "." ++ "in", "eq", [v]⟩
    ∧ Qentry (name ++ "__" ++ "type", v)
        = Except.ok ⟨AttrKind.attr, name ++ "." ++ "type", "eq", [v]⟩
    ∧ (∀ op ∈ (["eq", "lt", "lte", "gt", "gte", "begins_with"] : List String),
      get_expression AttrKind.key name op v = Except.ok ⟨AttrKind.key, name, op, [v]⟩)
    ∧ get_expression AttrKind.key name "between" (PyVal.list [a, b])
        = Except.ok ⟨AttrKind.key, name, "between", [a, b]⟩
    ∧ (∀ op ∈ (["ne", "is_in", "exists", "not_exists", "contains",
        "attribute_type", "in", "type"] : List String),
      get_expression AttrKind.key name op v = Except.error PyErr.attributeError) := by
  refine ⟨?_, ?_, ?_, ?_, ?_, ?_, ?_, ?_, ?_, ?_⟩
  · intro op hop
    have har : attrArity op = some 1 := by fin_cases hop <;> rfl
    have hsp := hs op (by fin_cases hop <;> simp)
    simp [Qentry, hsp, parseAttr, hasattrAttr, har, get_expression, methodArity]
  · have hsp := hs "between" (by simp)
    simp [Qentry, hsp, parseAttr, hasattrAttr, attrArity, get_expression, methodArity,
      PyVal.isTrue, iterArgs]
  · have hsp := hs "exists" (by simp)
    simp [Qentry, hsp, parseAttr, hasattrAttr, attrArity, get_expression, methodArity,
      PyVal.isTrue]
  · have hsp := hs "not_exists" (by simp)
    simp [Qentry, hsp, parseAttr, hasattrAttr, attrArity, get_expression, methodArity,
      PyVal.isTrue]
  · simp [Qentry, hp, parseAttr, get_expression, methodArity, attrArity]
  · have hsp := hs "in" (by simp)
    simp [Qentry, hsp, parseAttr, hasattrAttr, attrArity, get_expression, methodArity]
  · have hsp := hs "type" (by simp)
    simp [Qentry, hsp, parseAttr, hasattrAttr, attrArity, get_expression, methodArity]
  · intro op hop
    have har : keyArity op = some 1 := by fin_cases hop <;> rfl
    simp [get_expression, methodArity, har]
  · simp [get_expression, methodArity, keyArity, PyVal.isTrue, iterArgs]
  · intro op hop
    have har : keyArity op = Option.none := by fin_cases hop <;> rfl
    have hnm : (op = "name") = False := by fin_cases hop <;> simp
    simp [get_expression, methodArity, har, hnm]

/-- Witness for `operator_vocabulary_amended` at the attribute `color`,
discharging the split hypotheses by evaluation. -/
theorem operator_vocabulary_amended_witness :
    ("is_in" ∈ (["eq", "ne", "lt", "lte", "gt", "gte", "begins_with", "is_in",
        "contains", "attribute_type"] : List String))
    ∧ Qentry ("color" ++ "__" ++ "is_in", PyVal.list [PyVal.str "r"])
        = Except.ok ⟨AttrKind.attr, "color", "is_in", [PyVal.list [PyVal.str "r"]]⟩
    ∧ Qentry ("color" ++ "__" ++ "in", PyVal.list [PyVal.str "r"])
        = Except.ok ⟨AttrKind.attr, "color" ++ "." ++ "in", "eq", [PyVal.list [PyVal.str "r"]]⟩ := by
  have happ := operator_vocabulary_amended "color" (PyVal.list [PyVal.str "r"])
    PyVal.none PyVal.none (by decide) (by decide)
  exact ⟨by simp, happ.1 "is_in" (by simp), happ.2.2.2.2.2.1⟩

/-- Appending on the left of a string is cancellable. -/
theorem string_append_cancel_left {s a b : String} (h : s ++ a = s ++ b) : a = b := by
  apply String.ext
  have hd := congrArg String.data h
  rw [String.data_append, String.data_append] at hd
  exact List.append_cancel_left hd

/-- Python dict assignment with a fresh key appends the entry. -/
theorem dictAssign_append {α : Type} (m : List (String × α)) (k : String) (v : α)
    (h : k ∉ m.map Prod.fst) : dictAssign m k v = m ++ [(k, v)] := by
  have hany : m.any (fun kv => kv.1 = k) = false := by
    rw [List.any_eq_false]
    intro kv hm
    simp only [decide_eq_true_eq]
    intro hk
    exact h (List.mem_map.mpr ⟨kv, hm, hk⟩)
  simp [dictAssign, hany]

/-- The `update` loop on well-formed kwargs (bases in the schema, valid
function tags, pairwise distinct bases): hash/range entries extend the
update key, every other entry contributes one SET fragment and one
`#uk_`/`:uv_` placeholder pair, all in insertion order. -/
theorem updateLoop_ok (t : TableDesc) (sf : List String) :
    ∀ (l uk : List (String × PyVal)) (uf : List String)
      (en : List (String × String)) (ev : List (String × PyVal)),
      (∀ kv ∈ l, (pySplitOnce "__" kv.1).1 ∈ sf) →
      (∀ kv ∈ l, ¬((pySplitOnce "__" kv.1).1 = t.hashKey ∨ t.rangeKey = some (pySplitOnce "__" kv.1).1) →
        (updateTemplate (pySplitOnce "__" kv.1).2 (pySplitOnce "__" kv.1).1).isSome) →
      ((l.map (fun kv => (pySplitOnce "__" kv.1).1)).Nodup) →
      (∀ kv ∈ l, (pySplitOnce "__" kv.1).1 ∉ uk.map Prod.fst) →
      (∀ kv ∈ l, ("#uk_" ++ (pySplitOnce "__" kv.1).1) ∉ en.map Prod.fst) →
      (∀ kv ∈ l, (":uv_" ++ (pySplitOnce "__" kv.1).1) ∉ ev.map Prod.fst) →
      updateLoop t sf l uk uf en ev = Except.ok
        (uk ++ l.filterMap (fun kv =>
            if (pySplitOnce "__" kv.1).1 = t.hashKey ∨ t.rangeKey = some (pySplitOnce "__" kv.1).1
            then some ((pySplitOnce "__" kv.1).1, kv.2) else Option.none),
         uf ++ l.filterMap (fun kv =>
            if (pySplitOnce "__" kv.1).1 = t.hashKey ∨ t.rangeKey = some (pySplitOnce "__" kv.1).1
            then Option.none else updateTemplate (pySplitOnce "__" kv.1).2 (pySplitOnce "__" kv.1).1),
         en ++ l.filterMap (fun kv =>
            if (pySplitOnce "__" kv.1).1 = t.hashKey ∨ t.rangeKey = some (pySplitOnce "__" kv.1).1
            then Option.none else some ("#uk_" ++ (pySplitOnce "__" kv.1).1, (pySplitOnce "__" kv.1).1)),
         ev ++ l.filterMap (fun kv =>
            if (pySplitOnce "__" kv.1).1 = t.hashKey ∨ t.rangeKey = some (pySplitOnce "__" kv.1).1
            then Option.none else some (":uv_" ++ (pySplitOnce "__" kv.1).1, kv.2))) := by
  intro l
  induction l with
  | nil => intro uk uf en ev _ _ _ _ _ _; simp [updateLoop]
  | cons hd rest ih =>
    intro uk uf en ev h1 h2 hnodup huk hen hev
    rcases hd with ⟨k0, v⟩
    have hbase : (pySplitOnce "__" k0).1 ∈ sf := h1 (k0, v) (List.mem_cons_self _ _)
    have hnodup2 : ((pySplitOnce "__" k0).1
        :: rest.map (fun kv => (pySplitOnce "__" kv.1).1)).Nodup := by
      simpa using hnodup
    have hnd := List.nodup_cons.mp hnodup2
    by_cases hk : (pySplitOnce "__" k0).1 = t.hashKey ∨ t.rangeKey = some (pySplitOnce "__" k0).1
    · -- key entry: goes into the update key
      have hassign := dictAssign_append uk (pySplitOnce "__" k0).1 v
        (huk (k0, v) (List.mem_cons_self _ _))
      have hrec := ih (uk ++ [((pySplitOnce "__" k0).1, v)]) uf en ev
        (fun kv hm => h1 kv (List.mem_cons_of_mem _ hm))
        (fun kv hm => h2 kv (List.mem_cons_of_mem _ hm))
        hnd.2
        (fun kv hm => by
          intro hmem
          rw [List.map_append] at hmem
          rcases List.mem_append.mp hmem with hmem1 | hmem2
          · exact huk kv (List.mem_cons_of_mem _ hm) hmem1
          · have heq0 : (pySplitOnce "__" kv.1).1 = (pySplitOnce "__" k0).1 := by simpa using hmem2
            have hmm : (pySplitOnce "__" k0).1 ∈ rest.map (fun kv => (pySplitOnce "__" kv.1).1) := by
              rw [← heq0]
              exact List.mem_map.mpr ⟨kv, hm, rfl⟩
            exact hnd.1 hmm
          )
        (fun kv hm => hen kv (List.mem_cons_of_mem _ hm))
        (fun kv hm => hev kv (List.mem_cons_of_mem _ hm))
      rw [show updateLoop t sf ((k0, v) :: rest) uk uf en ev
          = updateLoop t sf rest (dictAssign uk (pySplitOnce "__" k0).1 v) uf en ev by
        simp [updateLoop, hbase, hk]]
      rw [hassign, hrec]
      simp [List.filterMap_cons, hk, List.append_assoc]
    · -- non-key entry: contributes a SET fragment and placeholders
      obtain ⟨frag, hfrag⟩ := Option.isSome_iff_exists.mp
        (h2 (k0, v) (List.mem_cons_self _ _) hk)
      have hen0 := dictAssign_append en ("#uk_" ++ (pySplitOnce "__" k0).1) (pySplitOnce "__" k0).1
        (hen (k0, v) (List.mem_cons_self _ _))
      have hev0 := dictAssign_append ev (":uv_" ++ (pySplitOnce "__" k0).1) v
        (hev (k0, v) (List.mem_cons_self _ _))
      have hrec := ih uk (uf ++ [frag])
        (en ++ [("#uk_" ++ (pySplitOnce "__" k0).1, (pySplitOnce "__" k0).1)])
        (ev ++ [(":uv_" ++ (pySplitOnce "__" k0).1, v)])
        (fun kv hm => h1 kv (List.mem_cons_of_mem _ hm))
        (fun kv hm => h2 kv (List.mem_cons_of_mem _ hm))
        hnd.2
        (fun kv hm => huk kv (List.mem_cons_of_mem _ hm))
        (fun kv hm => by
          intro hmem
          rw [List.map_append] at hmem
          rcases List.mem_append.mp hmem with hmem1 | hmem2
          · exact hen kv (List.mem_cons_of_mem _ hm) hmem1
          · have heq : "#uk_" ++ (pySplitOnce "__" kv.1).1 = "#uk_" ++ (pySplitOnce "__" k0).1 := by
              simpa using hmem2
            have heq0 : (pySplitOnce "__" kv.1).1 = (pySplitOnce "__" k0).1 :=
              string_append_cancel_left heq
            have hmm : (pySplitOnce "__" k0).1 ∈ rest.map (fun kv => (pySplitOnce "__" kv.1).1) := by
              rw [← heq0]
              exact List.mem_map.mpr ⟨kv, hm, rfl⟩
            exact hnd.1 hmm
          )
        (fun kv hm => by
          intro hmem
          rw [List.map_append] at hmem
          rcases List.mem_append.mp hmem with hmem1 | hmem2
          · exact hev kv (List.mem_cons_of_mem _ hm) hmem1
          · have heq : ":uv_" ++ (pySplitOnce "__" kv.1).1 = ":uv_" ++ (pySplitOnce "__" k0).1 := by
              simpa using hmem2
            have heq0 : (pySplitOnce "__" kv.1).1 = (pySplitOnce "__" k0).1 :=
              string_append_cancel_left heq
            have hmm : (pySplitOnce "__" k0).1 ∈ rest.map (fun kv => (pySplitOnce "__" kv.1).1) := by
              rw [← heq0]
              exact List.mem_map.mpr ⟨kv, hm, rfl⟩
            exact hnd.1 hmm
          )
      rw [show updateLoop t sf ((k0, v) :: rest) uk uf en ev
          = updateLoop t sf rest uk (uf ++ [frag])
              (dictAssign en ("#uk_" ++ (pySplitOnce "__" k0).1) (pySplitOnce "__" k0).1)
              (dictAssign ev (":uv_" ++ (pySplitOnce "__" k0).1) v) by
        simp [updateLoop, hbase, hk, hfrag]]
      rw [hen0, hev0, hrec]
      simp [List.filterMap_cons, hk, hfrag, List.append_assoc]

/-- Whenever some entry's base field is absent from the schema (and the
entries use recognised function tags), the `update` loop raises
InvalidSchemaField, whatever the accumulators hold. -/
theorem updateLoop_err (t : TableDesc) (sf : List String) :
    ∀ (l uk : List (String × PyVal)) (uf : List String)
      (en : List (String × String)) (ev : List (String × PyVal)),
      (∀ kv ∈ l, (pySplitOnce "__" kv.1).1 ∈ sf →
        ¬((pySplitOnce "__" kv.1).1 = t.hashKey ∨ t.rangeKey = some (pySplitOnce "__" kv.1).1) →
        (updateTemplate (pySplitOnce "__" kv.1).2 (pySplitOnce "__" kv.1).1).isSome) →
      (∃ kv ∈ l, (pySplitOnce "__" kv.1).1 ∉ sf) →
      updateLoop t sf l uk uf en ev = Except.error PyErr.invalidSchemaField := by
  intro l
  induction l with
  | nil => intro uk uf en ev _ hbad; rcases hbad with ⟨kv, hm, _⟩; cases hm
  | cons hd rest ih =>
    intro uk uf en ev h2 hbad
    rcases hd with ⟨k0, v⟩
    by_cases hbase : (pySplitOnce "__" k0).1 ∈ sf
    · have hbadrest : ∃ kv ∈ rest, (pySplitOnce "__" kv.1).1 ∉ sf := by
        rcases hbad with ⟨kv, hm, hnsf⟩
        rcases List.mem_cons.mp hm with rfl | hmr
        · exact absurd hbase hnsf
        · exact ⟨kv, hmr, hnsf⟩
      by_cases hk : (pySplitOnce "__" k0).1 = t.hashKey ∨ t.rangeKey = some (pySplitOnce "__" k0).1
      · rw [show updateLoop t sf ((k0, v) :: rest) uk uf en ev
            = updateLoop t sf rest (dictAssign uk (pySplitOnce "__" k0).1 v) uf en ev by
          simp [updateLoop, hbase, hk]]
        exact ih _ _ _ _ (fun kv hm => h2 kv (List.mem_cons_of_mem _ hm)) hbadrest
      · obtain ⟨frag, hfrag⟩ := Option.isSome_iff_exists.mp
          (h2 (k0, v) (List.mem_cons_self _ _) hbase hk)
        rw [show updateLoop t sf ((k0, v) :: rest) uk uf en ev
            = updateLoop t sf rest uk (uf ++ [frag])
                (dictAssign en ("#uk_" ++ (pySplitOnce "__" k0).1) (pySplitOnce "__" k0).1)
                (dictAssign ev (":uv_" ++ (pySplitOnce "__" k0).1) v) by
          simp [updateLoop, hbase, hk, hfrag]]
        exact ih _ _ _ _ (fun kv hm => h2 kv (List.mem_cons_of_mem _ hm)) hbadrest
    · simp [updateLoop, hbase]

/-- C5: `update` routes hash/range entries into the update key (never into
SET), compiles each non-key entry's function tag — plus, append, minus,
if_not_exists, or plain set — into its SET fragment with `#uk_`/`:uv_`
placeholders keyed by the field name, joins all fragments into one SET
expression, and raises InvalidSchemaField before any store call when an
entry's base field is absent from the schema. -/
theorem update_expression_compiler :
    (∀ (t : TableDesc) (sf : List String) (kwargs : List (String × PyVal)),
      (∀ kv ∈ kwargs, (pySplitOnce "__" kv.1).1 ∈ sf) →
      (∀ kv ∈ kwargs, ¬((pySplitOnce "__" kv.1).1 = t.hashKey ∨ t.rangeKey = some (pySplitOnce "__" kv.1).1) →
        (updateTemplate (pySplitOnce "__" kv.1).2 (pySplitOnce "__" kv.1).1).isSome) →
      ((kwargs.map (fun kv => (pySplitOnce "__" kv.1).1)).Nodup) →
      ∃ req, update t sf [] kwargs = Except.ok req
        ∧ req.updateKey = kwargs.filterMap (fun kv =>
            if (pySplitOnce "__" kv.1).1 = t.hashKey ∨ t.rangeKey = some (pySplitOnce "__" kv.1).1
            then some ((pySplitOnce "__" kv.1).1, kv.2) else Option.none)
        ∧ req.updateExpression = "SET " ++ String.intercalate ", " (kwargs.filterMap (fun kv =>
            if (pySplitOnce "__" kv.1).1 = t.hashKey ∨ t.rangeKey = some (pySplitOnce "__" kv.1).1
            then Option.none else updateTemplate (pySplitOnce "__" kv.1).2 (pySplitOnce "__" kv.1).1))
        ∧ req.exprNames = kwargs.filterMap (fun kv =>
            if (pySplitOnce "__" kv.1).1 = t.hashKey ∨ t.rangeKey = some (pySplitOnce "__" kv.1).1
            then Option.none else some ("#uk_" ++ (pySplitOnce "__" kv.1).1, (pySplitOnce "__" kv.1).1))
        ∧ req.exprVals = kwargs.filterMap (fun kv =>
            if (pySplitOnce "__" kv.1).1 = t.hashKey ∨ t.rangeKey = some (pySplitOnce "__" kv.1).1
            then Option.none else some (":uv_" ++ (pySplitOnce "__" kv.1).1, kv.2))
        ∧ req.conditionExpression = Option.none)
    ∧ (∀ (t : TableDesc) (sf : List String) (kwargs : List (String × PyVal)),
      (∀ kv ∈ kwargs, (pySplitOnce "__" kv.1).1 ∈ sf →
        ¬((pySplitOnce "__" kv.1).1 = t.hashKey ∨ t.rangeKey = some (pySplitOnce "__" kv.1).1) →
        (updateTemplate (pySplitOnce "__" kv.1).2 (pySplitOnce "__" kv.1).1).isSome) →
      (∃ kv ∈ kwargs, (pySplitOnce "__" kv.1).1 ∉ sf) →
      update t sf [] kwargs = Except.error PyErr.invalidSchemaField)
    ∧ update ⟨"id", Option.none, []⟩ ["id", "score", "tags"] []
        [("id", PyVal.str "a"), ("score__plus", PyVal.int 1), ("tags__append", PyVal.list [PyVal.str "x"])]
      = Except.ok ⟨[("id", PyVal.str "a")],
          "SET #uk_score = #uk_score + :uv_score, #uk_tags = list_append(#uk_tags, :uv_tags)",
          [("#uk_score", "score"), ("#uk_tags", "tags")],
          [(":uv_score", PyVal.int 1), (":uv_tags", PyVal.list [PyVal.str "x"])],
          Option.none⟩ := by
  refine ⟨?_, ?_, ?_⟩
  · intro t sf kwargs h1 h2 hnodup
    have hloop := updateLoop_ok t sf kwargs [] [] [] [] h1 h2 hnodup
      (by intro kv _ hmem; simp at hmem)
      (by intro kv _ hmem; simp at hmem)
      (by intro kv _ hmem; simp at hmem)
    refine ⟨⟨kwargs.filterMap (fun kv =>
        if (pySplitOnce "__" kv.1).1 = t.hashKey ∨ t.rangeKey = some (pySplitOnce "__" kv.1).1
        then some ((pySplitOnce "__" kv.1).1, kv.2) else Option.none),
      "SET " ++ String.intercalate ", " (kwargs.filterMap (fun kv =>
        if (pySplitOnce "__" kv.1).1 = t.hashKey ∨ t.rangeKey = some (pySplitOnce "__" kv.1).1
        then Option.none else updateTemplate (pySplitOnce "__" kv.1).2 (pySplitOnce "__" kv.1).1)),
      kwargs.filterMap (fun kv =>
        if (pySplitOnce "__" kv.1).1 = t.hashKey ∨ t.rangeKey = some (pySplitOnce "__" kv.1).1
        then Option.none else some ("#uk_" ++ (pySplitOnce "__" kv.1).1, (pySplitOnce "__" kv.1).1)),
      kwargs.filterMap (fun kv =>
        if (pySplitOnce "__" kv.1).1 = t.hashKey ∨ t.rangeKey = some (pySplitOnce "__" kv.1).1
        then Option.none else some (":uv_" ++ (pySplitOnce "__" kv.1).1, kv.2)),
      Option.none⟩, ?_, rfl, rfl, rfl, rfl, rfl⟩
    simp [update, hloop, Q, Qfold]
  · intro t sf kwargs h2 hbad
    have hloop := updateLoop_err t sf kwargs [] [] [] [] h2 hbad
    simp [update, hloop]
  · rfl

/-- Witness for `update_expression_compiler` at the concrete table and
kwargs of the specification's example, discharging every hypothesis. -/
theorem update_expression_compiler_witness :
    (∀ kv ∈ ([("id", PyVal.str "a"), ("score__plus", PyVal.int 1),
        ("tags__append", PyVal.list [PyVal.str "x"])] : List (String × PyVal)),
      (pySplitOnce "__" kv.1).1 ∈ ["id", "score", "tags"])
    ∧ (∃ req, update ⟨"id", Option.none, []⟩ ["id", "score", "tags"] []
          [("id", PyVal.str "a"), ("score__plus", PyVal.int 1),
            ("tags__append", PyVal.list [PyVal.str "x"])]
        = Except.ok req
      ∧ req.updateKey = ([("id", PyVal.str "a"), ("score__plus", PyVal.int 1),
            ("tags__append", PyVal.list [PyVal.str "x"])] : List (String × PyVal)).filterMap (fun kv =>
          if (pySplitOnce "__" kv.1).1 = (⟨"id", Option.none, []⟩ : TableDesc).hashKey
              ∨ (⟨"id", Option.none, []⟩ : TableDesc).rangeKey = some (pySplitOnce "__" kv.1).1
          then some ((pySplitOnce "__" kv.1).1, kv.2) else Option.none)
      ∧ req.updateExpression = "SET " ++ String.intercalate ", "
          (([("id", PyVal.str "a"), ("score__plus", PyVal.int 1),
            ("tags__append", PyVal.list [PyVal.str "x"])] : List (String × PyVal)).filterMap (fun kv =>
          if (pySplitOnce "__" kv.1).1 = (⟨"id", Option.none, []⟩ : TableDesc).hashKey
              ∨ (⟨"id", Option.none, []⟩ : TableDesc).rangeKey = some (pySplitOnce "__" kv.1).1
          then Option.none else updateTemplate (pySplitOnce "__" kv.1).2 (pySplitOnce "__" kv.1).1))
      ∧ req.exprNames = ([("id", PyVal.str "a"), ("score__plus", PyVal.int 1),
            ("tags__append", PyVal.list [PyVal.str "x"])] : List (String × PyVal)).filterMap (fun kv =>
          if (pySplitOnce "__" kv.1).1 = (⟨"id", Option.none, []⟩ : TableDesc).hashKey
              ∨ (⟨"id", Option.none, []⟩ : TableDesc).rangeKey = some (pySplitOnce "__" kv.1).1
          then Option.none else some ("#uk_" ++ (pySplitOnce "__" kv.1).1, (pySplitOnce "__" kv.1).1))
      ∧ req.exprVals = ([("id", PyVal.str "a"), ("score__plus", PyVal.int 1),
            ("tags__append", PyVal.list [PyVal.str "x"])] : List (String × PyVal)).filterMap (fun kv =>
          if (pySplitOnce "__" kv.1).1 = (⟨"id", Option.none, []⟩ : TableDesc).hashKey
              ∨ (⟨"id", Option.none, []⟩ : TableDesc).rangeKey = some (pySplitOnce "__" kv.1).1
          then Option.none else some (":uv_" ++ (pySplitOnce "__" kv.1).1, kv.2))
      ∧ req.conditionExpression = Option.none)
    ∧ update ⟨"id", Option.none, []⟩ ["id", "score"] []
        [("color__plus", PyVal.int 1)] = Except.error PyErr.invalidSchemaField := by
  have h1 : ∀ kv ∈ ([("id", PyVal.str "a"), ("score__plus", PyVal.int 1),
      ("tags__append", PyVal.list [PyVal.str "x"])] : List (String × PyVal)),
      (pySplitOnce "__" kv.1).1 ∈ ["id", "score", "tags"] := by
    intro kv hm
    rcases List.mem_cons.mp hm with rfl | hm1
    · decide
    · rcases List.mem_cons.mp hm1 with rfl | hm2
      · decide
      · rcases List.mem_cons.mp hm2 with rfl | hm3
        · decide
        · cases hm3
  have h2 : ∀ kv ∈ ([("id", PyVal.str "a"), ("score__plus", PyVal.int 1),
      ("tags__append", PyVal.list [PyVal.str "x"])] : List (String × PyVal)),
      ¬((pySplitOnce "__" kv.1).1 = (⟨"id", Option.none, []⟩ : TableDesc).hashKey
        ∨ (⟨"id", Option.none, []⟩ : TableDesc).rangeKey = some (pySplitOnce "__" kv.1).1) →
      (updateTemplate (pySplitOnce "__" kv.1).2 (pySplitOnce "__" kv.1).1).isSome := by
    intro kv hm _
    rcases List.mem_cons.mp hm with rfl | hm1
    · decide
    · rcases List.mem_cons.mp hm1 with rfl | hm2
      · decide
      · rcases List.mem_cons.mp hm2 with rfl | hm3
        · decide
        · cases hm3
  have hnodup : (([("id", PyVal.str "a"), ("score__plus", PyVal.int 1),
      ("tags__append", PyVal.list [PyVal.str "x"])] : List (String × PyVal)).map
        (fun kv => (pySplitOnce "__" kv.1).1)).Nodup := by
    simp [pySplitOnce, pySplitOnceCore, startsWithChars]
  have hbad2 : ∀ kv ∈ ([("color__plus", PyVal.int 1)] : List (String × PyVal)),
      (pySplitOnce "__" kv.1).1 ∈ ["id", "score"] →
      ¬((pySplitOnce "__" kv.1).1 = (⟨"id", Option.none, []⟩ : TableDesc).hashKey
        ∨ (⟨"id", Option.none, []⟩ : TableDesc).rangeKey = some (pySplitOnce "__" kv.1).1) →
      (updateTemplate (pySplitOnce "__" kv.1).2 (pySplitOnce "__" kv.1).1).isSome := by
    intro kv hm _ _
    rcases List.mem_cons.mp hm with rfl | hm1
    · decide
    · cases hm1
  have hbadex : ∃ kv ∈ ([("color__plus", PyVal.int 1)] : List (String × PyVal)),
      (pySplitOnce "__" kv.1).1 ∉ ["id", "score"] := by
    exact ⟨("color__plus", PyVal.int 1), List.mem_cons_self _ _, by decide⟩
  exact ⟨h1, update_expression_compiler.1 ⟨"id", Option.none, []⟩ ["id", "score", "tags"] _ h1 h2 hnodup,
    update_expression_compiler.2.1 ⟨"id", Option.none, []⟩ ["id", "score"] _ hbad2 hbadex⟩
